import Mathlib

/-!
Verification of the CME-to-Kalshi basis-trading core (`src/strategy.py`,
`src/ingestion/cme_client.py`, `src/execution/backtest.py`,
`backtest_cme_arbitrage.py`), shallowly embedded over exact rationals.
Python float arithmetic is modelled by `ℚ`; prices in cents by `ℤ`;
dates by `ℕ`.
-/

namespace KalshiTrading

/-- The `action` field of `Signal` (`strategy.py`): the Python code uses
the strings `'buy'`, `'sell'` or `None` (hold). -/
inductive SAction where
  | buy
  | sell
  | hold
deriving DecidableEq, Repr

/-- Signal dataclass from `strategy.py` (the free-text `reason` and the
constant `side = "yes"` carry no information used by any claim and are
omitted). `confidence` defaults to `0.0` in the source, which the hold
branch relies on. -/
structure Signal where
  action : SAction
  confidence : ℚ
deriving DecidableEq, Repr

/-- Source function `CMEArbitrageStrategy.calculate_basis` (`strategy.py` lines 42-58):
`basis_long = fair_value_cents - kalshi_ask`,
`basis_short = kalshi_bid - fair_value_cents`. -/
def calculateBasis (kalshiBid kalshiAsk : ℤ) (fairValueCents : ℚ) : ℚ × ℚ :=
  (fairValueCents - (kalshiAsk : ℚ), (kalshiBid : ℚ) - fairValueCents)

/-- The signal-generation part of `CMEArbitrageStrategy.update`
(`strategy.py` lines 100-121), with the fair value already resolved:
buy when `basis_long > entry_threshold`, else sell when
`basis_short > entry_threshold`, else hold with the default
confidence `0`. -/
def updateSignal (entryThreshold : ℚ) (kalshiBid kalshiAsk : ℤ)
    (fairValueCents : ℚ) : Signal :=
  let b := calculateBasis kalshiBid kalshiAsk fairValueCents
  if b.1 > entryThreshold then
    ⟨SAction.buy, min (b.1 / 10) 1⟩
  else if b.2 > entryThreshold then
    ⟨SAction.sell, min (b.2 / 10) 1⟩
  else
    ⟨SAction.hold, 0⟩

/-- The signal rule as the spec states it (§4.2 steps 3-5): buy requires
`basis_long > threshold` AND `basis_long ≥ basis_short`. Written from the
spec's words, to be compared with `updateSignal` (which comes from the
source and has no `basis_long ≥ basis_short` conjunct). -/
def specSignalRule (entryThreshold : ℚ) (kalshiBid kalshiAsk : ℤ)
    (fairValueCents : ℚ) : Signal :=
  let bl : ℚ := fairValueCents - (kalshiAsk : ℚ)
  let bs : ℚ := (kalshiBid : ℚ) - fairValueCents
  if bl > entryThreshold ∧ bl ≥ bs then
    ⟨SAction.buy, min (bl / 10) 1⟩
  else if bs > entryThreshold then
    ⟨SAction.sell, min (bs / 10) 1⟩
  else
    ⟨SAction.hold, 0⟩

/-- Source function `CMEClient.calculate_probabilities` (`cme_client.py` lines 84-100),
per settlement price: `implied_rate = 100 - price`,
`base_rate_est = (implied_rate // step) * step`,
`hike_prob = (implied_rate - base_rate_est) / step`, clipped to `[0, 1]`
(`clip(0.0, 1.0)` maps `x` to `min (max x 0) 1`). In the source the step
is the fixed attribute `hike_size = 0.25`; it is a parameter here so the
spec's quantification over step sizes can be stated. -/
def deriveProbability (settlementPrice stepSize : ℚ) : ℚ :=
  let impliedRate : ℚ := 100 - settlementPrice
  let baseRate : ℚ := (⌊impliedRate / stepSize⌋ : ℚ) * stepSize
  let raw : ℚ := (impliedRate - baseRate) / stepSize
  min (max raw 0) 1

/-- Source constructor `CMEClient.__init__` sets `self.hike_size = 0.25` unconditionally;
there is no step-size argument and no validation. -/
def cmeClientHikeSize : ℚ := 1 / 4

/-- One aligned row fed to `run_backtest`'s vectorised computation:
`fair_value_prob`, `yes_bid`, `yes_ask` (`strategy.py` lines 134-140). -/
structure Obs where
  fairValueProb : ℚ
  yesBid : ℤ
  yesAsk : ℤ
deriving DecidableEq, Repr

/-- Value of the `signal` column of `run_backtest` (`strategy.py` lines
147-149): initialised to 0, set to 1 where `basis_long > entry_threshold`,
then set to -1 where `basis_short > entry_threshold`. The sell assignment
runs second, so on a row where both conditions held it would win. -/
def backtestSignal (entryThreshold : ℚ) (o : Obs) : ℤ :=
  let fv : ℚ := o.fairValueProb * 100
  let bl : ℚ := fv - (o.yesAsk : ℚ)
  let bs : ℚ := (o.yesBid : ℚ) - fv
  if bs > entryThreshold then -1
  else if bl > entryThreshold then 1
  else 0

/-- One realized trade row of `run_backtest` (`strategy.py` lines 151-161). -/
structure TradeRow where
  fvCents : ℚ
  yesBid : ℤ
  yesAsk : ℤ
  signal : ℤ
  pnlGross : ℚ
  pnlNet : ℚ
deriving DecidableEq, Repr

/-- Trade rows of `run_backtest` (`strategy.py` lines 151-161): the rows
with nonzero signal, with `pnl_gross = fv_cents - yes_ask` where the
signal is 1 (buy) and `yes_bid - fv_cents` otherwise (sell), and
`pnl_net = pnl_gross - fees_round_trip`. No per-contract scaling appears
in the source. -/
def backtestTrades (entryThreshold feesRoundTrip : ℚ) (rows : List Obs) :
    List TradeRow :=
  rows.filterMap fun o =>
    let fv : ℚ := o.fairValueProb * 100
    let s : ℤ := backtestSignal entryThreshold o
    if s = 0 then none
    else
      let g : ℚ := if s = 1 then fv - (o.yesAsk : ℚ) else (o.yesBid : ℚ) - fv
      some ⟨fv, o.yesBid, o.yesAsk, s, g, g - feesRoundTrip⟩

/-- Number of rows of `run_backtest` whose signal is non-hold (nonzero),
i.e. the `len(trades)` reported by the runner. -/
def countTriggered (entryThreshold : ℚ) (rows : List Obs) : ℕ :=
  (rows.filter fun o => decide (backtestSignal entryThreshold o ≠ 0)).length

/-- Date alignment of `run_backtest` (`strategy.py` lines 133-137):
`pd.concat([...], axis=1)` outer-joins the two date indexes (modelled as
association lists with unique keys), and `.dropna()` keeps exactly the
rows where both sides are present. -/
def alignedRows (probs : List (ℕ × ℚ)) (quotes : List (ℕ × ℤ × ℤ)) :
    List (ℕ × ℚ × ℤ × ℤ) :=
  ((probs.map Prod.fst ++ quotes.map Prod.fst).dedup).filterMap fun d =>
    match probs.lookup d, quotes.lookup d with
    | some p, some q => some (d, p, q)
    | _, _ => none

/-- Model of `self.cme_probs.index.get_indexer([date], method='nearest')`
followed by `iloc` (`strategy.py` lines 90-93): the entry whose date
minimises the absolute distance to `d`, ties broken towards the larger
date (pandas' tie rule); `none` on an empty series. -/
def nearestLookup (probs : List (ℕ × ℚ)) (d : ℕ) : Option ℚ :=
  (probs.foldl (fun best kv =>
    match best with
    | none => some kv
    | some bkv =>
        if Nat.dist kv.1 d < Nat.dist bkv.1 d ∨
            (Nat.dist kv.1 d = Nat.dist bkv.1 d ∧ bkv.1 < kv.1) then some kv
        else best) none).map Prod.snd

/-- Date-lookup path of `CMEArbitrageStrategy.update` with an explicit
date (`strategy.py` lines 86-97): exact lookup when the date is in the
index, otherwise the nearest date's probability is used; a hold signal
with no action when there is no data at all. The probability is scaled
by 100 into cents before signal generation. -/
def updateAt (probs : List (ℕ × ℚ)) (entryThreshold : ℚ)
    (kalshiBid kalshiAsk : ℤ) (d : ℕ) : Signal :=
  match probs.lookup d with
  | some p => updateSignal entryThreshold kalshiBid kalshiAsk (p * 100)
  | none =>
      match nearestLookup probs d with
      | none => ⟨SAction.hold, 0⟩
      | some p => updateSignal entryThreshold kalshiBid kalshiAsk (p * 100)

/-- Count of winning trades in `backtest_cme_arbitrage.main` (line 111):
`(trades['pnl_net'] > 0).sum()`. -/
def winningCount (pnls : List ℚ) : ℕ :=
  (pnls.filter fun p => decide (0 < p)).length

/-- Count of losing trades in `backtest_cme_arbitrage.main` (line 112):
`(trades['pnl_net'] <= 0).sum()`. -/
def losingCount (pnls : List ℚ) : ℕ :=
  (pnls.filter fun p => decide (p ≤ 0)).length

/-- Win rate in `backtest_cme_arbitrage.main` (line 113):
`(trades['pnl_net'] > 0).mean() * 100`, the mean of the 0/1 indicator of
strictly positive net P&L, times 100. -/
def winRate (pnls : List ℚ) : ℚ :=
  ((pnls.map fun p => if 0 < p then (1 : ℚ) else 0).sum / (pnls.length : ℚ)) * 100

/-- Python `int()` truncates toward zero. -/
def pyInt (q : ℚ) : ℤ := if 0 ≤ q then ⌊q⌋ else ⌈q⌉

/-- Body of `generate_kalshi_mock` (`backtest_cme_arbitrage.py` lines
34-49) per date. The `noise` list stands for the successive
`np.random.normal(0, drift_std)` draws, one per probability; quantifying
over arbitrary rational noise covers every drift standard deviation.
`market_center_cents = (true_prob + noise) * 100`; the 4-cent spread is
laid around it, then `bid = max(1, min(98, bid))` and
`ask = max(bid + 1, min(99, ask))`. -/
def generateKalshiMock (cmeProbs noise : List ℚ) : List (ℤ × ℤ) :=
  (cmeProbs.zip noise).map fun pn =>
    let marketCenterCents : ℚ := (pn.1 + pn.2) * 100
    let spreadWidth : ℚ := 4
    let bid0 : ℤ := pyInt (marketCenterCents - spreadWidth / 2)
    let ask0 : ℤ := pyInt (marketCenterCents + spreadWidth / 2)
    let bid : ℤ := max 1 (min 98 bid0)
    let ask : ℤ := max (bid + 1) (min 99 ask0)
    (bid, ask)

/-- Trade dataclass from `kalshi_client.py` lines 16-23 (its fields are
never read by `Backtester.run`; the timestamp is modelled as ℕ). -/
structure Trade where
  tradeId : String
  ticker : String
  yesPrice : ℤ
  count : ℤ
  takerSide : String
  createdTime : ℕ
deriving DecidableEq, Repr

/-- BacktestResult dataclass from `backtest.py` lines 27-39 (the `orders`
list is omitted; no claim touches it). -/
structure BacktestResult where
  totalRoundTrips : ℤ
  winningTrades : ℤ
  losingTrades : ℤ
  totalPnl : ℚ
  totalPnlDollars : ℚ
  maxDrawdown : ℚ
  sharpeRatio : ℚ
  winRatePct : ℚ
  avgTradePnl : ℚ
deriving DecidableEq, Repr

/-- Source method `Backtester.run` (`backtest.py` lines 90-117). Its body
is a TODO stub whose only executable statement is
`return BacktestResult(...)`: the Ellipsis object is passed as the single
constructor argument, so every call raises `TypeError` (the module cannot
even be imported: `from .strategy import Signal` names a module that does
not exist, and the `MomentumStrategy` annotation is an undefined name).
Modelled as an error result for every input, including the empty list. -/
def backtesterRun (_trades : List Trade) : Except String BacktestResult :=
  Except.error "TypeError: BacktestResult() missing required positional arguments"

/-- Configuration record of the `CMEArbitrageStrategy` dataclass
(`strategy.py` lines 24-40). -/
structure CMEArbitrageStrategyCfg where
  cmeProbs : List (ℕ × ℚ)
  entryThreshold : ℚ
  feesRoundTrip : ℚ
deriving DecidableEq, Repr

/-- Construction of `CMEArbitrageStrategy`: a plain `@dataclass`, so
construction is field assignment only — the source contains no check on
`entry_threshold` (negative values are accepted) and cannot fail. -/
def mkCMEArbitrageStrategy (probs : List (ℕ × ℚ))
    (entryThreshold feesRoundTrip : ℚ) : Except String CMEArbitrageStrategyCfg :=
  Except.ok ⟨probs, entryThreshold, feesRoundTrip⟩

end KalshiTrading

namespace KalshiTrading

/-- C1: on valid inputs (1 ≤ bid < ask ≤ 99, fair value in [0,100],
threshold ≥ 0) the source's signal rule agrees with the spec's rule
(buy with confidence `min (basis_long/10) 1` when `basis_long > t` and
`basis_long ≥ basis_short`; else sell with `min (basis_short/10) 1` when
`basis_short > t`; else hold with confidence 0). Under `bid < ask` and
`t ≥ 0`, `basis_long > t` already forces `basis_long ≥ basis_short`, so
the source's missing conjunct is harmless. -/
theorem c1_update_matches_spec_rule (bid ask : ℤ) (fv t : ℚ)
    (_hb1 : 1 ≤ bid) (_hb99 : bid ≤ 99) (_ha1 : 1 ≤ ask) (_ha99 : ask ≤ 99)
    (hba : bid < ask) (_hfv0 : 0 ≤ fv) (_hfv100 : fv ≤ 100) (ht : 0 ≤ t) :
    updateSignal t bid ask fv = specSignalRule t bid ask fv := by
  have hba' : (bid : ℚ) < (ask : ℚ) := by exact_mod_cast hba
  unfold updateSignal specSignalRule calculateBasis
  by_cases hbl : fv - (ask : ℚ) > t
  · have hge : fv - (ask : ℚ) ≥ (bid : ℚ) - fv := by linarith
    simp [hbl, hge]
  · simp [hbl]

/-- Witness for C1 at bid = 48, ask = 51, fv = 56, t = 9/2. -/
theorem c1_update_matches_spec_rule_witness :
    (1:ℤ) ≤ 48 ∧ (48:ℤ) ≤ 99 ∧ (1:ℤ) ≤ 51 ∧ (51:ℤ) ≤ 99 ∧ (48:ℤ) < 51 ∧
      (0:ℚ) ≤ 56 ∧ (56:ℚ) ≤ 100 ∧ (0:ℚ) ≤ 9/2 ∧
      updateSignal (9/2) 48 51 56 = specSignalRule (9/2) 48 51 56 :=
  ⟨by norm_num, by norm_num, by norm_num, by norm_num, by norm_num,
   by norm_num, by norm_num, by norm_num,
   c1_update_matches_spec_rule 48 51 56 (9/2) (by norm_num) (by norm_num)
     (by norm_num) (by norm_num) (by norm_num) (by norm_num) (by norm_num)
     (by norm_num)⟩

/-- C3: for every step size s > 0 and every settlement price p, the
derived (clipped) probability lies in [0, 1]. -/
theorem c3_deriveProbability_mem_unit (p s : ℚ) (_hs : 0 < s) :
    0 ≤ deriveProbability p s ∧ deriveProbability p s ≤ 1 := by
  unfold deriveProbability
  constructor
  · exact le_min (le_max_right _ _) zero_le_one
  · exact min_le_right _ _

/-- Witness for C3 at p = 96.36, s = 1/4. -/
theorem c3_deriveProbability_mem_unit_witness :
    (0:ℚ) < 1/4 ∧ 0 ≤ deriveProbability (2409/25) (1/4) ∧
      deriveProbability (2409/25) (1/4) ≤ 1 :=
  ⟨by norm_num, c3_deriveProbability_mem_unit (2409/25) (1/4) (by norm_num)⟩

/-- C4: concrete scenario. Settlement price 96.36 with step 0.25 gives
probability 0.56, hence fair value 56 cents; with quote bid = 48,
ask = 51 and threshold 4.5 the signal is buy with confidence 0.5, and
with quote bid = 50, ask = 53 it is hold. (The reference rate 5.33 does
not enter the probability formula in the source.) -/
theorem c4_concrete_scenario :
    deriveProbability (2409/25) (1/4) = 14/25 ∧
      deriveProbability (2409/25) (1/4) * 100 = 56 ∧
      updateSignal (9/2) 48 51 56 = ⟨SAction.buy, 1/2⟩ ∧
      updateSignal (9/2) 50 53 56 = ⟨SAction.hold, 0⟩ := by
  refine ⟨?_, ?_, ?_, ?_⟩
  · norm_num [deriveProbability]
  · norm_num [deriveProbability]
  · norm_num [updateSignal, calculateBasis]
  · norm_num [updateSignal, calculateBasis]

/-- C2 counterexample: one observation with fair value 60¢, bid 47, ask 50,
threshold 4.5, fees 2 yields a single buy trade with net P&L 8 (cents per
contract); the claim's scaling by `contractsPerTrade` (default 10) would
require 80 instead. -/
theorem c2_counterexample_no_contract_scaling :
    (backtestTrades (9/2) 2 [⟨3/5, 47, 50⟩]).map TradeRow.pnlNet = [8] ∧
      ¬ ((8 : ℚ) = ((3/5 : ℚ) * 100 - 50 - 2) * 10) := by
  constructor
  · norm_num [backtestTrades, backtestSignal, List.filterMap]
  · norm_num

/-- C2 (amended): every trade row the replay realizes has gross P&L
`fv_cents - ask` for a buy (signal 1) and `bid - fv_cents` for a sell
(signal -1), and net P&L `gross - fees_round_trip` per contract, with no
contracts-per-trade scaling. -/
theorem c2_trade_pnl (t fees : ℚ) (rows : List Obs) (tr : TradeRow)
    (h : tr ∈ backtestTrades t fees rows) :
    (tr.signal = 1 → tr.pnlGross = tr.fvCents - (tr.yesAsk : ℚ)) ∧
      (tr.signal = -1 → tr.pnlGross = (tr.yesBid : ℚ) - tr.fvCents) ∧
      tr.pnlNet = tr.pnlGross - fees ∧ tr.signal ≠ 0 := by
  simp only [backtestTrades, List.mem_filterMap] at h
  obtain ⟨o, -, hf⟩ := h
  by_cases hs : backtestSignal t o = 0
  · rw [if_pos hs] at hf
    exact absurd hf (by simp)
  · rw [if_neg hs] at hf
    obtain rfl := Option.some_inj.mp hf
    refine ⟨fun h1 => ?_, fun h1 => ?_, rfl, hs⟩
    · have h1' : backtestSignal t o = 1 := h1
      simp [h1']
    · have h1' : backtestSignal t o = -1 := h1
      simp [h1']

/-- Witness for C2 at the concrete buy trade of the counterexample run. -/
theorem c2_trade_pnl_witness :
    (⟨60, 47, 50, 1, 10, 8⟩ : TradeRow) ∈ backtestTrades (9/2) 2 [⟨3/5, 47, 50⟩] ∧
      (10 : ℚ) = 60 - ((50 : ℤ) : ℚ) ∧ (8 : ℚ) = 10 - 2 := by
  have hmem : (⟨60, 47, 50, 1, 10, 8⟩ : TradeRow) ∈
      backtestTrades (9/2) 2 [⟨3/5, 47, 50⟩] := by
    have he : backtestTrades (9/2) 2 [⟨3/5, 47, 50⟩] = [⟨60, 47, 50, 1, 10, 8⟩] := by
      norm_num [backtestTrades, backtestSignal, List.filterMap]
    rw [he]
    exact List.mem_singleton_self _
  have h := c2_trade_pnl (9/2) 2 [⟨3/5, 47, 50⟩] ⟨60, 47, 50, 1, 10, 8⟩ hmem
  exact ⟨hmem, h.1 rfl, h.2.2.1⟩

/-- Helper: a successful association-list lookup means the key occurs in
the key column. -/
theorem lookup_mem_map_fst {α : Type} (l : List (ℕ × α)) (d : ℕ) (x : α)
    (h : l.lookup d = some x) : d ∈ l.map Prod.fst := by
  induction l with
  | nil => simp [List.lookup] at h
  | cons kv rest ih =>
    rw [List.lookup] at h
    by_cases hdk : d = kv.1
    · simp [hdk]
    · have : (d == kv.1) = false := beq_false_of_ne hdk
      rw [this] at h
      simp only [List.map_cons, List.mem_cons]
      exact Or.inr (ih h)

/-- C5 counterexample: with fair-value series defined only at date 0 and a
quote dated 5, `update` does not drop the unmatched date — it matches the
quote to the nearest date's fair value (60¢) and fires a buy signal. -/
theorem c5_counterexample_nearest_match :
    List.lookup 5 [(0, (3/5 : ℚ))] = none ∧
      updateAt [(0, 3/5)] (9/2) 47 50 5 = ⟨SAction.buy, 1⟩ := by
  refine ⟨rfl, ?_⟩
  have h : List.lookup 5 [(0, (3/5 : ℚ))] = none := rfl
  have h2 : nearestLookup [(0, (3/5 : ℚ))] 5 = some (3/5) := rfl
  rw [updateAt, h, h2]
  norm_num [updateSignal, calculateBasis]

/-- C5 (amended): in the backtest replay the aligned (fair value, quote)
pairs share exact date keys — a row for date d appears exactly when both
inputs have date d, carrying those exact values, so dates present in only
one input are dropped and never interpolated. -/
theorem c5_replay_alignment_inner_join (probs : List (ℕ × ℚ))
    (quotes : List (ℕ × ℤ × ℤ)) (d : ℕ) (p : ℚ) (b a : ℤ) :
    (d, p, b, a) ∈ alignedRows probs quotes ↔
      probs.lookup d = some p ∧ quotes.lookup d = some (b, a) := by
  unfold alignedRows
  rw [List.mem_filterMap]
  constructor
  · rintro ⟨k, _, hf⟩
    rcases hp : probs.lookup k with _ | p' <;>
      rcases hq : quotes.lookup k with _ | q' <;>
      rw [hp, hq] at hf <;> simp at hf
    obtain ⟨rfl, rfl, rfl⟩ := hf
    exact ⟨hp, hq⟩
  · rintro ⟨hp, hq⟩
    refine ⟨d, List.mem_dedup.mpr
      (List.mem_append_left _ (lookup_mem_map_fst probs d p hp)), ?_⟩
    rw [hp, hq]

/-- C6: `Backtester.run`, the only code that builds a `BacktestResult`, is
an unimplemented stub: on the empty trade list (as on every input) it
raises `TypeError` instead of returning the all-zero result the spec
requires. -/
theorem c6_empty_replay_raises :
    backtesterRun [] =
      Except.error "TypeError: BacktestResult() missing required positional arguments" :=
  rfl

/-- Helper: a replay row is non-hold exactly when one of the two bases
exceeds the threshold. -/
theorem backtestSignal_ne_zero_iff (t : ℚ) (o : Obs) :
    backtestSignal t o ≠ 0 ↔
      o.fairValueProb * 100 - (o.yesAsk : ℚ) > t ∨
        (o.yesBid : ℚ) - o.fairValueProb * 100 > t := by
  simp only [backtestSignal]
  split_ifs with h1 h2
  · simp [h1]
  · simp [h1, h2]
  · simp [h1, h2]

/-- C7: raising the entry threshold can only decrease the number of
non-hold signals over a fixed observation sequence. -/
theorem c7_threshold_monotone (rows : List Obs) (t1 t2 : ℚ) (h : t1 ≤ t2) :
    countTriggered t2 rows ≤ countTriggered t1 rows := by
  unfold countTriggered
  refine List.Sublist.length_le (List.monotone_filter_right rows ?_)
  intro o ho
  rw [decide_eq_true_iff] at ho ⊢
  rw [backtestSignal_ne_zero_iff] at ho ⊢
  rcases ho with hbl | hbs
  · exact Or.inl (lt_of_le_of_lt h hbl)
  · exact Or.inr (lt_of_le_of_lt h hbs)

/-- Witness for C7 at thresholds 1 ≤ 2 over one observation. -/
theorem c7_threshold_monotone_witness :
    (1 : ℚ) ≤ 2 ∧
      countTriggered 2 [⟨3/5, 47, 50⟩] ≤ countTriggered 1 [⟨3/5, 47, 50⟩] :=
  ⟨by norm_num, c7_threshold_monotone [⟨3/5, 47, 50⟩] 1 2 (by norm_num)⟩

/-- C8 counterexample: constructing the strategy with the negative entry
threshold -1 succeeds (plain dataclass field assignment), where the claim
requires an `InvalidParameter` failure. -/
theorem c8_counterexample_negative_threshold_accepted :
    mkCMEArbitrageStrategy [] (-1) 2 = Except.ok ⟨[], -1, 2⟩ :=
  rfl

/-- C8 (amended): construction performs no validation and never fails —
any entry threshold (negative included) is accepted, and the probability
model's step size is the fixed positive constant 0.25, not a checked
parameter. -/
theorem c8_construction_never_fails (probs : List (ℕ × ℚ)) (t fees : ℚ) :
    mkCMEArbitrageStrategy probs t fees = Except.ok ⟨probs, t, fees⟩ ∧
      0 < cmeClientHikeSize :=
  ⟨rfl, by norm_num [cmeClientHikeSize]⟩

/-- Helper: the sum of the 0/1 indicator of strictly positive P&L equals
the winning-trade count. -/
theorem sum_indicator_eq_winningCount (pnls : List ℚ) :
    (pnls.map fun p => if 0 < p then (1 : ℚ) else 0).sum = (winningCount pnls : ℚ) := by
  induction pnls with
  | nil => simp [winningCount]
  | cons p rest ih =>
    by_cases h : 0 < p
    · simp [winningCount, List.filter_cons, h, ih]
      ring
    · simp [winningCount, List.filter_cons, h, ih]

/-- Helper: winning (net P&L > 0) and losing (net P&L ≤ 0) trades
partition the trade list, so a zero-P&L trade counts as losing. -/
theorem winningCount_add_losingCount (pnls : List ℚ) :
    winningCount pnls + losingCount pnls = pnls.length := by
  induction pnls with
  | nil => rfl
  | cons p rest ih =>
    by_cases h : 0 < p
    · have h' : ¬ p ≤ 0 := not_le.mpr h
      simp [winningCount, losingCount, List.filter_cons, h, h'] at ih ⊢
      omega
    · have h' : p ≤ 0 := not_lt.mp h
      simp [winningCount, losingCount, List.filter_cons, h, h'] at ih ⊢
      omega

/-- C9: for a non-empty trade list, the win rate is the number of trades
with strictly positive net P&L divided by the total, times 100, and the
winning/losing split is exhaustive with zero-P&L trades counted losing. -/
theorem c9_win_rate (pnls : List ℚ) (_h : pnls ≠ []) :
    winRate pnls = (winningCount pnls : ℚ) / (pnls.length : ℚ) * 100 ∧
      winningCount pnls + losingCount pnls = pnls.length := by
  constructor
  · unfold winRate
    rw [sum_indicator_eq_winningCount]
  · exact winningCount_add_losingCount pnls

/-- Witness for C9 at trades [2, 0, -1]: one winner, two losers (the
zero-P&L trade counted losing), win rate 1/3 of 100. -/
theorem c9_win_rate_witness :
    ([(2:ℚ), 0, -1] ≠ []) ∧
      winRate [2, 0, -1] =
        (winningCount [(2:ℚ), 0, -1] : ℚ) / (([(2:ℚ), 0, -1].length : ℕ) : ℚ) * 100 ∧
      winningCount [(2:ℚ), 0, -1] + losingCount [(2:ℚ), 0, -1] =
        [(2:ℚ), 0, -1].length :=
  ⟨by simp, c9_win_rate [2, 0, -1] (by simp)⟩

/-- C10: every quote row the mock Kalshi generator produces — for any
probability series and any noise draws — satisfies 1 ≤ bid < ask ≤ 99. -/
theorem c10_mock_quotes_valid (cmeProbs noise : List ℚ) (q : ℤ × ℤ)
    (h : q ∈ generateKalshiMock cmeProbs noise) :
    1 ≤ q.1 ∧ q.1 < q.2 ∧ q.2 ≤ 99 := by
  simp only [generateKalshiMock, List.mem_map] at h
  obtain ⟨pn, -, rfl⟩ := h
  dsimp only
  refine ⟨le_max_left _ _, ?_, ?_⟩
  · exact lt_of_lt_of_le (lt_add_one _) (le_max_left _ _)
  · have hbid : max 1 (min 98 (pyInt ((pn.1 + pn.2) * 100 - 4 / 2))) ≤ 98 :=
      max_le (by norm_num) (min_le_left _ _)
    exact max_le (by omega) (min_le_left _ _)

/-- Witness for C10 at probability 1/2 with zero noise: the generated
quote is (48, 52). -/
theorem c10_mock_quotes_valid_witness :
    ((48:ℤ), (52:ℤ)) ∈ generateKalshiMock [1/2] [0] ∧
      (1:ℤ) ≤ 48 ∧ (48:ℤ) < 52 ∧ (52:ℤ) ≤ 99 := by
  have hmem : ((48:ℤ), (52:ℤ)) ∈ generateKalshiMock [1/2] [0] := by
    have he : generateKalshiMock [1/2] [0] = [(48, 52)] := by
      norm_num [generateKalshiMock, pyInt]
    rw [he]
    exact List.mem_singleton_self _
  exact ⟨hmem, c10_mock_quotes_valid [1/2] [0] (48, 52) hmem⟩

end KalshiTrading
